import Mathlib

/-!
Shallow embedding of `scripts/extract_assets.py` (Clawdbot Arena asset
extractor).  Images are row-major lists of rows of RGBA pixels; Python ints
become `Int` (descriptor coordinates) or `Nat` (channel values, sizes).
Pillow calls (`Image.crop`) are modelled from Pillow's documented and
implemented semantics: `crop` validates that the box is not inverted
(raising `ValueError` when `right < left` or `lower < upper`), returns a
fresh image, and fills pixels sampled outside the source with zeros.
Filesystem writes are not modelled; a per-descriptor pipeline is the
crop / background-keying sequence, returning `Except` for the raised-or-ok
distinction.
-/

/-- An RGBA pixel; channels are `Nat` (Python ints in 0..255). -/
structure Pixel where
  r : Nat
  g : Nat
  b : Nat
  a : Nat
deriving DecidableEq, Repr

/-- An image is a row-major list of rows of pixels (what `pixels[x, y]`
ranges over in the Python source). -/
abbrev Image : Type := List (List Pixel)

/-- `img.length`, the pixel height of the image. -/
def imageHeight (img : Image) : Nat := img.length

/-- Length of the first row: the pixel width of a well-formed image. -/
def imageWidth (img : Image) : Nat := (img.head?.getD []).length

/-- `img` is a `W × H` raster: `H` rows, each of width `W`. -/
def wellFormed (img : Image) (W H : Nat) : Prop :=
  img.length = H ∧ ∀ row ∈ img, row.length = W

/-- `abs(x - y)` on channel values, as in the Python `abs(r - g)`. -/
def adiff (x y : Nat) : Nat := ((x : Int) - (y : Int)).natAbs

/-- The keying condition of `remove_checkered_background` (lines 197-199):
all pairwise channel differences are below 10 and the gray level (the red
channel, all three being near-equal) lies in the inclusive band 180..220. -/
def isBackground (p : Pixel) : Prop :=
  adiff p.r p.g < 10 ∧ adiff p.g p.b < 10 ∧ adiff p.r p.b < 10 ∧
    180 ≤ p.r ∧ p.r ≤ 220

instance (p : Pixel) : Decidable (isBackground p) := by
  unfold isBackground; infer_instance

/-- The per-pixel action of the filter: `pixels[x, y] = (r, g, b, 0)` when
`isBackground` holds, otherwise the pixel is untouched. -/
def keyPixel (p : Pixel) : Pixel :=
  if isBackground p then ⟨p.r, p.g, p.b, 0⟩ else p

/-- `remove_checkered_background` (lines 173-202): the nested x/y loop
writes `keyPixel` at every coordinate; no pixel depends on another, so the
loop is a per-pixel map. -/
def remove_checkered_background (img : Image) : Image :=
  img.map (fun row => row.map keyPixel)

/-- Pixel lookup at nonnegative coordinates; out-of-range reads give the
zero pixel (Pillow fills regions sampled outside the source with zeros). -/
def getPixN (img : Image) (x y : Nat) : Pixel :=
  ((img.getD y []).getD x ⟨0, 0, 0, 0⟩)

/-- Pixel lookup at `Int` coordinates. -/
def getPixI (img : Image) (x y : Int) : Pixel :=
  if 0 ≤ x ∧ 0 ≤ y then getPixN img x.toNat y.toNat else ⟨0, 0, 0, 0⟩

/-- The raster of the box `(l, u, r, d)` sampled from `img`: height
`(d - u).toNat`, width `(r - l).toNat`, pixel `(i, j)` read at
`(l + i, u + j)`. -/
def cropRegion (img : Image) (l u r d : Int) : Image :=
  (List.range (d - u).toNat).map (fun (j : Nat) =>
    (List.range (r - l).toNat).map (fun (i : Nat) =>
      getPixI img (l + (i : Int)) (u + (j : Int))))

/-- Modelled from Pillow's `Image.crop`: raises `ValueError` when the box
is inverted (`right < left` or `lower < upper`); otherwise returns a fresh
raster of the boxed region (zero-filled where it leaves the source). -/
def pilCrop (img : Image) (l u r d : Int) : Except String Image :=
  if r < l then Except.error ("Coordinate right is less than left")
  else if d < u then Except.error ("Coordinate lower is less than upper")
  else Except.ok (cropRegion img l u r d)

/-- A region descriptor `(x, y, width, height)` from the `ASSETS` table. -/
structure Desc where
  x : Int
  y : Int
  w : Int
  h : Int
deriving DecidableEq, Repr

/-- Lines 229-239: `crop_box = (x, y, x+w, y+h)` clamped coordinatewise by
`(max(0, ·), max(0, ·), min(W, ·), min(H, ·))`. -/
def clampBox (W H : Int) (d : Desc) : Int × Int × Int × Int :=
  (max 0 d.x, max 0 d.y, min W (d.x + d.w), min H (d.y + d.h))

/-- The body of the per-descriptor `try` block (lines 229-251): clamp
against `source.size`, crop the source, key the crop.  The save is not
modelled (no filesystem); the `Except` tracks whether anything in the
sequence raised. -/
def extractOne (source : Image) (d : Desc) : Except String Image :=
  match pilCrop source
      (clampBox (imageWidth source) (imageHeight source) d).1
      (clampBox (imageWidth source) (imageHeight source) d).2.1
      (clampBox (imageWidth source) (imageHeight source) d).2.2.1
      (clampBox (imageWidth source) (imageHeight source) d).2.2.2 with
  | Except.error e => Except.error e
  | Except.ok cropped => Except.ok (remove_checkered_background cropped)

/-- `true` for `Except.ok`, `false` for `Except.error`. -/
def isOk {ε α : Type} : Except ε α → Bool
  | Except.ok _ => true
  | Except.error _ => false

/-- The `for output_path, asset_info in ASSETS.items()` loop (lines
224-257): each descriptor is processed inside its own `try`/`except`, so a
failure is recorded and the loop continues.  `crop` returns a fresh image
and the filter mutates only that copy, so the source is threaded through
unchanged; the loop returns the source as it stands afterwards together
with the per-descriptor outcomes. -/
def extractLoop : Image → List Desc → Image × List (Except String Image)
  | source, [] => (source, [])
  | source, d :: rest =>
    let out := extractOne source d
    let next := extractLoop source rest
    (next.1, out :: next.2)

/-- `extracted_count`: incremented once per descriptor whose `try` block
completed (line 254). -/
def countOk : List (Except String Image) → Nat
  | [] => 0
  | o :: rest => (if isOk o then 1 else 0) + countOk rest

/-- `extract_assets` (lines 205-260): returns `False` only when opening /
converting the source raises (line 220); otherwise runs the loop and
returns `True` (line 260) regardless of per-item outcomes.  The load step
is passed as its result.  The returned list is the per-descriptor outcome
log (the `[OK]` / `[ERROR]` lines). -/
def extract_assets (load : Except String Image) (descs : List Desc) :
    Bool × List (Except String Image) :=
  match load with
  | Except.error _ => (false, [])
  | Except.ok source => (true, (extractLoop source descs).2)

/-- `main` (lines 416-461) as the list of steps it runs: nothing when the
source file is missing (line 424); after `extract_assets` returns `False`
it prints the failure and returns (line 434), skipping the spritesheet
splitting and the manifest; otherwise all steps run. -/
def mainRuns (sourceExists : Bool) (load : Except String Image)
    (descs : List Desc) : List String :=
  if sourceExists = false then []
  else if (extract_assets load descs).1 = false then
    ["create_directories", "extract_assets"]
  else
    ["create_directories", "extract_assets", "split_fighter_spritesheet",
     "split_effect_spritesheet", "create_animation_json"]

/-- The insertion order of the `animations` dict keys (lines 280-289):
`list(animations.keys())`. -/
def animationNames : List String :=
  ["idle", "walk", "jump", "attack1", "attack2", "special", "hit", "ko"]

/-- Line 307: `list(animations.keys())[frame_idx]` when `frame_idx` is in
range, else the fallback `f"frame_{frame_idx}"`. -/
def frameName (i : Nat) : String :=
  animationNames.getD i ("frame_" ++ toString i)

/-- `split_fighter_spritesheet` (lines 291-311): `frames_per_row = 4`,
`actual_frame_width = sheet_width // 4`, `actual_frame_height =
sheet_height // 2`; the nested `for row in range(2): for col in range(4)`
loop with running `frame_idx` enumerates frames 0..7 in row-major order
with `row = i // 4`, `col = i % 4`; frame `i` is `sheet.crop` of the box
`(col*fw, row*fh, col*fw+fw, row*fh+fh)` saved under `frameName i`. -/
def split_fighter_frames (sheet : Image) : List (String × Except String Image) :=
  let fw : Nat := imageWidth sheet / 4
  let fh : Nat := imageHeight sheet / 2
  (List.range 8).map (fun i =>
    (frameName i,
     pilCrop sheet (((i % 4) * fw : Nat) : Int) (((i / 4) * fh : Nat) : Int)
       (((i % 4) * fw + fw : Nat) : Int) (((i / 4) * fh + fh : Nat) : Int)))

/-- `split_effect_spritesheet` (lines 335-344): `frame_width =
sheet_width // expected_frames`; frame `i` is `sheet.crop` of the
full-height strip `(i*fw, 0, i*fw+fw, sheet_height)`. -/
def split_effect_frames (sheet : Image) (expectedFrames : Nat) :
    List (Except String Image) :=
  let fw : Nat := imageWidth sheet / expectedFrames
  (List.range expectedFrames).map (fun i =>
    pilCrop sheet ((i * fw : Nat) : Int) 0 ((i * fw + fw : Nat) : Int)
      ((imageHeight sheet : Nat) : Int))

/-- The `ASSETS` table (lines 19-150): the region quadruple of every
descriptor, in dict order (destination paths and descriptions omitted —
no claim depends on them). -/
def ASSETS : List Desc :=
  [⟨0, 12, 295, 115⟩, ⟨0, 140, 295, 115⟩, ⟨0, 268, 295, 115⟩,
   ⟨0, 396, 295, 115⟩,
   ⟨305, 12, 175, 45⟩, ⟨305, 62, 175, 45⟩, ⟨305, 112, 175, 60⟩,
   ⟨490, 12, 175, 45⟩, ⟨490, 62, 175, 45⟩, ⟨490, 112, 175, 60⟩,
   ⟨675, 12, 175, 45⟩, ⟨675, 62, 175, 45⟩, ⟨675, 112, 175, 60⟩,
   ⟨305, 185, 200, 40⟩, ⟨515, 185, 80, 70⟩, ⟨605, 185, 100, 70⟩,
   ⟨860, 12, 155, 160⟩, ⟨715, 185, 85, 50⟩, ⟨860, 185, 155, 200⟩,
   ⟨305, 240, 140, 75⟩, ⟨455, 240, 140, 75⟩, ⟨605, 240, 90, 90⟩,
   ⟨700, 270, 100, 50⟩, ⟨305, 330, 100, 90⟩, ⟨415, 330, 100, 90⟩,
   ⟨525, 400, 90, 110⟩, ⟨625, 400, 90, 110⟩, ⟨725, 400, 90, 110⟩,
   ⟨825, 400, 90, 110⟩]

/-- An `H`-row, `W`-column raster of a single opaque white pixel, used to
instantiate theorems at concrete image sizes. -/
def whiteImage (W H : Nat) : Image :=
  List.replicate H (List.replicate W ⟨255, 255, 255, 255⟩)

theorem wellFormed_whiteImage (W H : Nat) : wellFormed (whiteImage W H) W H := by
  refine ⟨List.length_replicate H _, fun row hrow => ?_⟩
  rw [List.eq_of_mem_replicate hrow]
  exact List.length_replicate W _

theorem imageHeight_whiteImage (W H : Nat) : imageHeight (whiteImage W H) = H :=
  List.length_replicate H _

theorem imageWidth_whiteImage (W H : Nat) (hH : H ≠ 0) :
    imageWidth (whiteImage W H) = W := by
  cases H with
  | zero => exact absurd rfl hH
  | succ n =>
    unfold whiteImage imageWidth
    rw [List.replicate_succ]
    simp

/-- `cropRegion` always yields a raster of the box's width and height. -/
theorem wellFormed_cropRegion (img : Image) (l u r d : Int) :
    wellFormed (cropRegion img l u r d) (r - l).toNat (d - u).toNat := by
  constructor
  · unfold cropRegion
    rw [List.length_map, List.length_range]
  · intro row hrow
    unfold cropRegion at hrow
    rcases List.mem_map.mp hrow with ⟨j, _, rfl⟩
    rw [List.length_map, List.length_range]

/-- The keying filter preserves the image's dimensions. -/
theorem wellFormed_remove (img : Image) (W H : Nat) (h : wellFormed img W H) :
    wellFormed (remove_checkered_background img) W H := by
  obtain ⟨h1, h2⟩ := h
  constructor
  · unfold remove_checkered_background
    rw [List.length_map]
    exact h1
  · intro row hrow
    unfold remove_checkered_background at hrow
    rcases List.mem_map.mp hrow with ⟨row0, hmem, rfl⟩
    rw [List.length_map]
    exact h2 row0 hmem

/-- A non-inverted box passes Pillow's validation. -/
theorem pilCrop_ok (img : Image) (l u r d : Int) (h1 : l ≤ r) (h2 : u ≤ d) :
    pilCrop img l u r d = Except.ok (cropRegion img l u r d) := by
  unfold pilCrop
  rw [if_neg (by omega), if_neg (by omega)]

/-- Pixel `(i, j)` of a cropped region is pixel `(l + i, u + j)` of the
source. -/
theorem getPixN_cropRegion (img : Image) (l u r d : Int) (i j : Nat)
    (hi : i < (r - l).toNat) (hj : j < (d - u).toNat) :
    getPixN (cropRegion img l u r d) i j = getPixI img (l + i) (u + j) := by
  unfold cropRegion getPixN
  simp only [List.getD_eq_getElem?_getD, List.getElem?_map,
    List.getElem?_range hj, List.getElem?_range hi, Option.map_some',
    Option.getD_some]

theorem keyPixel_zero : keyPixel ⟨0, 0, 0, 0⟩ = ⟨0, 0, 0, 0⟩ := by decide

/-- The filter commutes with pixel lookup: the output pixel at any
coordinate is `keyPixel` of the input pixel there. -/
theorem getPixN_remove (img : Image) (x y : Nat) :
    getPixN (remove_checkered_background img) x y = keyPixel (getPixN img x y) := by
  unfold getPixN remove_checkered_background
  simp only [List.getD_eq_getElem?_getD, List.getElem?_map]
  cases hy : img[y]? with
  | none => simp [keyPixel_zero]
  | some row =>
    simp only [Option.map_some', Option.getD_some, List.getElem?_map]
    cases hx : row[x]? with
    | none => simp [keyPixel_zero]
    | some p => simp

theorem keyPixel_idem (p : Pixel) : keyPixel (keyPixel p) = keyPixel p := by
  unfold keyPixel
  by_cases h : isBackground p
  · rw [if_pos h, if_pos]
    exact h
  · rw [if_neg h, if_neg h]

/-- C2: the filter zeroes a pixel's alpha exactly when all pairwise channel
differences are below the threshold 10 and the gray level lies in the
inclusive band 180..220 (`isBackground`), and leaves every other pixel
completely unchanged; keying (200,200,200,255) yields alpha 0, keying
(200,0,0,255) leaves the pixel at alpha 255. -/
theorem C2_keying_condition :
    (∀ (img : Image) (x y : Nat),
      getPixN (remove_checkered_background img) x y =
        (if isBackground (getPixN img x y) then
          { getPixN img x y with a := 0 }
         else getPixN img x y)) ∧
    remove_checkered_background [[⟨200, 200, 200, 255⟩]] = [[⟨200, 200, 200, 0⟩]] ∧
    remove_checkered_background [[⟨200, 0, 0, 255⟩]] = [[⟨200, 0, 0, 255⟩]] := by
  refine ⟨fun img x y => ?_, by decide, by decide⟩
  rw [getPixN_remove]
  unfold keyPixel
  by_cases h : isBackground (getPixN img x y) <;> simp [h]

/-- C3: the background-keying filter is idempotent — applying it twice to
any image produces the same pixel buffer as applying it once. -/
theorem C3_keying_idempotent (img : Image) :
    remove_checkered_background (remove_checkered_background img) =
      remove_checkered_background img := by
  unfold remove_checkered_background
  rw [List.map_map]
  apply List.map_congr_left
  intro row _
  simp only [Function.comp_apply]
  rw [List.map_map]
  apply List.map_congr_left
  intro p _
  exact keyPixel_idem p

/-- C9: the filter writes only the alpha channel and only downward — at
every coordinate the output r, g, b equal the input r, g, b, and the
output alpha is either the input alpha or 0. -/
theorem C9_alpha_only_downward (img : Image) (x y : Nat) :
    (getPixN (remove_checkered_background img) x y).r = (getPixN img x y).r ∧
    (getPixN (remove_checkered_background img) x y).g = (getPixN img x y).g ∧
    (getPixN (remove_checkered_background img) x y).b = (getPixN img x y).b ∧
    ((getPixN (remove_checkered_background img) x y).a = (getPixN img x y).a ∨
     (getPixN (remove_checkered_background img) x y).a = 0) := by
  rw [getPixN_remove]
  unfold keyPixel
  by_cases h : isBackground (getPixN img x y) <;> simp [h]

/-- C1 counterexample: the descriptor `(10, 0, 2, 2)` lies strictly fully
outside a 4×4 source (`4 ≤ 10`), yet extraction does not produce a
zero-area crop: the clamped box is inverted (`left = 10 > right = 4`), the
modelled Pillow crop raises, and the per-descriptor pipeline fails — so
the exception branch of the loop is reachable with no irregularity other
than an out-of-bounds rectangle. -/
theorem C1_counterexample :
    isOk (extractOne (whiteImage 4 4) ⟨10, 0, 2, 2⟩) = false ∧
    (imageWidth (whiteImage 4 4) : Int) ≤ 10 := by
  decide

/-- C1 (amended): the crop box is clamped coordinatewise into
`[0, W] × [0, H]`; the per-descriptor pipeline succeeds exactly when the
clamped box is not inverted (which holds whenever the rectangle meets the
image, and in particular for every partly-overlapping rectangle), and then
the crop is the clamped box's raster — zero-area when the rectangle only
touches the bounds.  When the rectangle lies strictly outside the bounds
on some axis, the clamped box is inverted and the crop raises (Pillow's
`ValueError`), reaching the loop's exception branch. -/
theorem C1_clamping (source : Image) (d : Desc) :
    (isOk (extractOne source d) = true ↔
      (max 0 d.x ≤ min (imageWidth source : Int) (d.x + d.w) ∧
       max 0 d.y ≤ min (imageHeight source : Int) (d.y + d.h))) ∧
    ((max 0 d.x ≤ min (imageWidth source : Int) (d.x + d.w) ∧
      max 0 d.y ≤ min (imageHeight source : Int) (d.y + d.h)) →
      ∃ out, extractOne source d = Except.ok out ∧
        wellFormed out
          (min (imageWidth source : Int) (d.x + d.w) - max 0 d.x).toNat
          (min (imageHeight source : Int) (d.y + d.h) - max 0 d.y).toNat) := by
  unfold extractOne pilCrop clampBox
  dsimp only
  constructor
  · split_ifs with h1 h2 <;> simp [isOk] <;> omega
  · intro h
    rw [if_neg (by omega), if_neg (by omega)]
    exact ⟨_, rfl, wellFormed_remove _ _ _ (wellFormed_cropRegion _ _ _ _ _)⟩

/-- C1 witness: descriptor `(1000, 12, 295, 115)` against a 1024×559
source is partly out of bounds; extraction succeeds with the clamped
24×115 crop. -/
theorem C1_clamping_witness :
    ∃ out, extractOne (whiteImage 1024 559) ⟨1000, 12, 295, 115⟩ = Except.ok out ∧
      wellFormed out 24 115 := by
  have hW : imageWidth (whiteImage 1024 559) = 1024 :=
    imageWidth_whiteImage 1024 559 (by decide)
  have hH : imageHeight (whiteImage 1024 559) = 559 :=
    imageHeight_whiteImage 1024 559
  have h := (C1_clamping (whiteImage 1024 559) ⟨1000, 12, 295, 115⟩).2
    (by rw [hW, hH]; constructor <;> decide)
  rw [hW, hH] at h
  exact h

/-- C7: a descriptor whose rectangle lies fully within the source bounds
extracts to exactly its declared width and height. -/
theorem C7_in_bounds_exact_dims (source : Image) (d : Desc)
    (hx : 0 ≤ d.x) (hy : 0 ≤ d.y) (hw : 0 ≤ d.w) (hh : 0 ≤ d.h)
    (hxw : d.x + d.w ≤ (imageWidth source : Int))
    (hyh : d.y + d.h ≤ (imageHeight source : Int)) :
    ∃ out, extractOne source d = Except.ok out ∧
      wellFormed out d.w.toNat d.h.toNat := by
  unfold extractOne clampBox
  dsimp only
  rw [max_eq_right hx, max_eq_right hy, min_eq_right hxw, min_eq_right hyh,
    pilCrop_ok source _ _ _ _ (by omega) (by omega)]
  refine ⟨_, rfl, ?_⟩
  have h := wellFormed_cropRegion source d.x d.y (d.x + d.w) (d.y + d.h)
  rw [show d.x + d.w - d.x = d.w by omega, show d.y + d.h - d.y = d.h by omega] at h
  exact wellFormed_remove _ _ _ h

/-- C7 witness: on a 1024×559 composite, the first `ASSETS` descriptor
`(0, 12, 295, 115)` yields one output image of exactly 295×115. -/
theorem C7_witness :
    ∃ out, extractOne (whiteImage 1024 559) ⟨0, 12, 295, 115⟩ = Except.ok out ∧
      wellFormed out 295 115 := by
  have hW : imageWidth (whiteImage 1024 559) = 1024 :=
    imageWidth_whiteImage 1024 559 (by decide)
  have hH : imageHeight (whiteImage 1024 559) = 559 :=
    imageHeight_whiteImage 1024 559
  exact C7_in_bounds_exact_dims (whiteImage 1024 559) ⟨0, 12, 295, 115⟩
    (by decide) (by decide) (by decide) (by decide)
    (by rw [hW]; decide) (by rw [hH]; decide)

/-- The per-descriptor loop leaves the source untouched and records one
outcome per descriptor, each computed from the original source. -/
theorem extractLoop_spec (source : Image) (descs : List Desc) :
    extractLoop source descs = (source, descs.map (extractOne source)) := by
  induction descs with
  | nil => rfl
  | cons d rest ih =>
    unfold extractLoop
    rw [ih]
    rfl

theorem countOk_map (f : Desc → Except String Image) (descs : List Desc) :
    countOk (descs.map f) = (descs.filter (fun d => isOk (f d))).length := by
  induction descs with
  | nil => rfl
  | cons d rest ih =>
    cases h : isOk (f d)
    · simp [countOk, List.filter_cons, h, ih]
    · simp [countOk, List.filter_cons, h, ih]
      omega

/-- C4: the loop processes every descriptor — one outcome per table entry,
each computed independently of any earlier failure — and the reported
count equals exactly the number of descriptors whose crop-filter-save
sequence completed without an exception. -/
theorem C4_per_item_failure_isolation (source : Image) (descs : List Desc) :
    (extractLoop source descs).2 = descs.map (extractOne source) ∧
    (extractLoop source descs).2.length = descs.length ∧
    countOk (extractLoop source descs).2 =
      (descs.filter (fun d => isOk (extractOne source d))).length := by
  rw [extractLoop_spec]
  exact ⟨rfl, List.length_map _ _, countOk_map _ _⟩

/-- C8: the composite source image is never mutated — after processing any
descriptor table the threaded source equals its initial value, and every
outcome is the crop-and-key of the original source. -/
theorem C8_source_immutable (source : Image) (descs : List Desc) :
    (extractLoop source descs).1 = source ∧
    (extractLoop source descs).2 = descs.map (extractOne source) := by
  rw [extractLoop_spec]
  exact ⟨rfl, rfl⟩

/-- C10: `extract_assets` reports success exactly when the source image
load succeeded, for every descriptor table (so per-item failures cannot
flip it); and `main` reaches the manifest step exactly when the source
file exists and loading succeeded. -/
theorem C10_success_iff_load (load : Except String Image) (descs : List Desc) :
    (extract_assets load descs).1 = isOk load ∧
    (∀ sourceExists : Bool,
      ("create_animation_json" ∈ mainRuns sourceExists load descs ↔
        sourceExists = true ∧ isOk load = true)) := by
  constructor
  · cases load <;> rfl
  · intro se
    cases se <;> cases load <;> simp [mainRuns, extract_assets, isOk]

theorem getPixI_natCast (img : Image) (n m : Nat) :
    getPixI img (n : Int) (m : Int) = getPixN img n m := by
  unfold getPixI
  rw [if_pos ⟨Int.natCast_nonneg n, Int.natCast_nonneg m⟩]
  simp

/-- A grid tile's crop: the box `(cx, cy, cx+fw, cy+fh)` is never
inverted, so the crop succeeds, has exactly `fw × fh` pixels, and pixel
`(px, py)` of the tile is pixel `(cx+px, cy+py)` of the sheet. -/
theorem pilCrop_tile (img : Image) (cx cy fw fh : Nat) :
    pilCrop img (cx : Int) (cy : Int) ((cx + fw : Nat) : Int) ((cy + fh : Nat) : Int) =
      Except.ok (cropRegion img (cx : Int) (cy : Int)
        ((cx + fw : Nat) : Int) ((cy + fh : Nat) : Int)) ∧
    wellFormed (cropRegion img (cx : Int) (cy : Int)
      ((cx + fw : Nat) : Int) ((cy + fh : Nat) : Int)) fw fh ∧
    ∀ px py : Nat, px < fw → py < fh →
      getPixN (cropRegion img (cx : Int) (cy : Int)
          ((cx + fw : Nat) : Int) ((cy + fh : Nat) : Int)) px py =
        getPixN img (cx + px) (cy + py) := by
  have e1 : (((cx + fw : Nat) : Int) - (cx : Int)).toNat = fw := by omega
  have e2 : (((cy + fh : Nat) : Int) - (cy : Int)).toNat = fh := by omega
  refine ⟨pilCrop_ok _ _ _ _ _ (by omega) (by omega), ?_, ?_⟩
  · have h := wellFormed_cropRegion img (cx : Int) (cy : Int)
      ((cx + fw : Nat) : Int) ((cy + fh : Nat) : Int)
    rw [e1, e2] at h
    exact h
  · intro px py hpx hpy
    rw [getPixN_cropRegion img _ _ _ _ px py (by omega) (by omega),
      ← Int.natCast_add, ← Int.natCast_add, getPixI_natCast]

/-- C5: the fighter slicer partitions the sheet into 8 tiles of size
`(sheet_width / 4) × (sheet_height / 2)` in row-major order (frame `i` is
the tile at column `i % 4`, row `i / 4`), names frame `i` by the `i`-th
entry of the positional table idle/walk/jump/attack1/attack2/special/
hit/ko, and any index beyond the named table would receive the fallback
name `frame_N`. -/
theorem C5_fighter_slicing (sheet : Image) (i : Nat) (hi : i < 8) :
    (split_fighter_frames sheet).length = 8 ∧
    (split_fighter_frames sheet).map Prod.fst =
      ["idle", "walk", "jump", "attack1", "attack2", "special", "hit", "ko"] ∧
    (∀ j : Nat, 8 ≤ j → frameName j = "frame_" ++ toString j) ∧
    ∃ frame,
      (split_fighter_frames sheet)[i]? = some (frameName i, Except.ok frame) ∧
      wellFormed frame (imageWidth sheet / 4) (imageHeight sheet / 2) ∧
      ∀ px py : Nat, px < imageWidth sheet / 4 → py < imageHeight sheet / 2 →
        getPixN frame px py =
          getPixN sheet ((i % 4) * (imageWidth sheet / 4) + px)
            ((i / 4) * (imageHeight sheet / 2) + py) := by
  refine ⟨?_, ?_, ?_, ?_⟩
  · unfold split_fighter_frames
    rw [List.length_map, List.length_range]
  · unfold split_fighter_frames
    rw [List.map_map]
    rfl
  · intro j hj
    unfold frameName
    rw [List.getD_eq_getElem?_getD,
      List.getElem?_eq_none (by simp [animationNames]; omega)]
    rfl
  · unfold split_fighter_frames
    dsimp only
    rw [List.getElem?_map, List.getElem?_range hi, Option.map_some']
    refine ⟨cropRegion sheet (((i % 4) * (imageWidth sheet / 4) : Nat) : Int)
        (((i / 4) * (imageHeight sheet / 2) : Nat) : Int)
        (((i % 4) * (imageWidth sheet / 4) + imageWidth sheet / 4 : Nat) : Int)
        (((i / 4) * (imageHeight sheet / 2) + imageHeight sheet / 2 : Nat) : Int),
      ?_, ?_, ?_⟩
    · rw [(pilCrop_tile sheet _ _ _ _).1]
    · exact (pilCrop_tile sheet _ _ _ _).2.1
    · exact (pilCrop_tile sheet _ _ _ _).2.2

/-- C5 witness: slicing an 8×4 sheet, frame 5 is a 2×2 tile named
"special". -/
theorem C5_witness :
    ∃ frame, (split_fighter_frames (whiteImage 8 4))[5]? =
        some ("special", Except.ok frame) ∧
      wellFormed frame 2 2 := by
  obtain ⟨frame, h1, h2, -⟩ := (C5_fighter_slicing (whiteImage 8 4) 5 (by decide)).2.2.2
  rw [imageWidth_whiteImage 8 4 (by decide), imageHeight_whiteImage 8 4] at h2
  rw [show frameName 5 = "special" from rfl] at h1
  exact ⟨frame, h1, h2⟩

/-- C6: when the sheet's dimensions are not evenly divisible by the 4×2
grid, slicing floor-divides and silently discards the remainder, raising
no validation error: with height 114 and width 296 or 298, every frame is
produced (`Except.ok`) with exactly 74×57 pixels, and the number of
discarded rightmost pixel columns is `width - 4*74 = width - 296` (0 for
296, 2 for 298). -/
theorem C6_floor_truncation (sheet : Image) (i : Nat) (hi : i < 8)
    (hh : imageHeight sheet = 114)
    (hw : imageWidth sheet = 296 ∨ imageWidth sheet = 298) :
    (split_fighter_frames sheet).length = 8 ∧
    (∃ frame, (split_fighter_frames sheet)[i]? = some (frameName i, Except.ok frame) ∧
      wellFormed frame 74 57) ∧
    imageWidth sheet - 4 * (imageWidth sheet / 4) = imageWidth sheet - 296 := by
  have hfw : imageWidth sheet / 4 = 74 := by
    rcases hw with h | h <;> rw [h]
  have hfh : imageHeight sheet / 2 = 57 := by rw [hh]
  refine ⟨?_, ?_, ?_⟩
  · unfold split_fighter_frames
    rw [List.length_map, List.length_range]
  · unfold split_fighter_frames
    dsimp only
    rw [List.getElem?_map, List.getElem?_range hi, Option.map_some']
    refine ⟨cropRegion sheet (((i % 4) * (imageWidth sheet / 4) : Nat) : Int)
        (((i / 4) * (imageHeight sheet / 2) : Nat) : Int)
        (((i % 4) * (imageWidth sheet / 4) + imageWidth sheet / 4 : Nat) : Int)
        (((i / 4) * (imageHeight sheet / 2) + imageHeight sheet / 2 : Nat) : Int),
      ?_, ?_⟩
    · rw [(pilCrop_tile sheet _ _ _ _).1]
    · rw [← hfw, ← hfh]
      exact (pilCrop_tile sheet _ _ _ _).2.1
  · rcases hw with h | h <;> rw [h]

/-- C6 witness: slicing concrete 298×114 and 296×114 sheets gives frame 0
as a 74×57 tile, with 2 and 0 rightmost columns discarded respectively. -/
theorem C6_witness :
    ((split_fighter_frames (whiteImage 298 114)).length = 8 ∧
      (∃ frame, (split_fighter_frames (whiteImage 298 114))[0]? =
          some (frameName 0, Except.ok frame) ∧ wellFormed frame 74 57) ∧
      imageWidth (whiteImage 298 114) - 4 * (imageWidth (whiteImage 298 114) / 4) =
        imageWidth (whiteImage 298 114) - 296) ∧
    ((split_fighter_frames (whiteImage 296 114)).length = 8 ∧
      (∃ frame, (split_fighter_frames (whiteImage 296 114))[0]? =
          some (frameName 0, Except.ok frame) ∧ wellFormed frame 74 57) ∧
      imageWidth (whiteImage 296 114) - 4 * (imageWidth (whiteImage 296 114) / 4) =
        imageWidth (whiteImage 296 114) - 296) := by
  constructor
  · exact C6_floor_truncation (whiteImage 298 114) 0 (by decide)
      (imageHeight_whiteImage 298 114)
      (Or.inr (imageWidth_whiteImage 298 114 (by decide)))
  · exact C6_floor_truncation (whiteImage 296 114) 0 (by decide)
      (imageHeight_whiteImage 296 114)
      (Or.inl (imageWidth_whiteImage 296 114 (by decide)))
